import Mathlib

/-!
Shallow embedding of the fan-maintenance dashboard core (src/app.py):
min-max normalization of metric columns (sklearn MinMaxScaler semantics),
the weighted condition score, threshold classification of latest readings,
and the fleet aggregation built on pandas groupby.

Float columns are embedded as rationals; pandas/sklearn failures on an
empty window are embedded as an explicit error value.
-/

namespace FanDashboard

/-- One row of the input table (one sensor reading of one fan).
Mirrors the columns of the CSV loaded in src/app.py line 7. -/
structure SensorReading where
  fanId : Nat
  timestamp : Int
  powerKW : ℚ
  motorTempC : ℚ
  airflowM3s : ℚ
  vibrationMMs : ℚ
  powerRatingKW : ℚ
  operationalStatus : String
  notes : String
deriving DecidableEq, Repr

/-- The four metrics that enter normalization and the condition score
(src/app.py lines 208-223). -/
inductive Metric where
  | power
  | temp
  | airflow
  | vibration
deriving DecidableEq, Repr

/-- Column accessor for one metric of one reading. -/
def metricValue : Metric → SensorReading → ℚ
  | .power, r => r.powerKW
  | .temp, r => r.motorTempC
  | .airflow, r => r.airflowM3s
  | .vibration, r => r.vibrationMMs

/-- The column of one metric over a window, in row order
(src/app.py lines 218-223, the `metrics` dict). -/
def metricColumn (m : Metric) (w : List SensorReading) : List ℚ :=
  w.map (metricValue m)

/-- Minimum of a column, as pandas/numpy compute it over a non-empty
column (the value on the empty column is never used: sklearn raises
before it is taken). -/
def colMin : List ℚ → ℚ
  | [] => 0
  | x :: xs => xs.foldl min x

/-- Maximum of a column, same convention as colMin. -/
def colMax : List ℚ → ℚ
  | [] => 0
  | x :: xs => xs.foldl max x

/-- One entry of sklearn MinMaxScaler with default feature range (0,1):
scaled = (v - min) * scale where scale = 1/(max - min), except that a
zero range is replaced by 1 (sklearn handle zeros in scale), giving
scaled = v - min. -/
def scaleEntry (xs : List ℚ) (v : ℚ) : ℚ :=
  if colMin xs < colMax xs then (v - colMin xs) / (colMax xs - colMin xs)
  else v - colMin xs

/-- MinMaxScaler fit_transform on one column (src/app.py line 225). -/
def minMaxScale (xs : List ℚ) : List ℚ :=
  xs.map (scaleEntry xs)

/-- Error raised when a computation receives an empty window: in the
source this surfaces as the pandas IndexError of `iloc[-1]` on an empty
frame (line 91) or the sklearn ValueError on fitting 0 samples
(line 225); the spec taxonomy names this case EmptyWindowError. -/
inductive EmptyWindowError where
  | emptyWindow
deriving DecidableEq, Repr

/-- The normalized metric table of src/app.py line 225: every metric
column rescaled independently; fails on an empty window. -/
def normalized_metrics (w : List SensorReading) :
    Except EmptyWindowError (Metric → List ℚ) :=
  if w.isEmpty then .error .emptyWindow
  else .ok (fun m => minMaxScale (metricColumn m w))

/-- The normalized column of one metric of a window. -/
def normalizedColumn (m : Metric) (w : List SensorReading) : List ℚ :=
  minMaxScale (metricColumn m w)

/-- Embedding of `.iloc[-1]` on a column: the positionally last entry,
an error on an empty column. -/
def ilocLast (xs : List ℚ) : Except EmptyWindowError ℚ :=
  match xs.getLast? with
  | some v => .ok v
  | none => .error .emptyWindow

/-- Last entry of a normalized metric column (total helper; agrees with
ilocLast on non-empty windows). -/
def lastNorm (m : Metric) (w : List SensorReading) : ℚ :=
  (normalizedColumn m w).getLastD 0

/-- The fan condition score of src/app.py lines 228-233: weighted sum of
the last normalized values, temperature and vibration inverted, times
100. Weights: power 0.3, temp 0.3, airflow 0.2, vibration 0.2. -/
def condition_score (w : List SensorReading) : Except EmptyWindowError ℚ := do
  let nm ← normalized_metrics w
  let p ← ilocLast (nm .power)
  let t ← ilocLast (nm .temp)
  let a ← ilocLast (nm .airflow)
  let v ← ilocLast (nm .vibration)
  pure (((3 / 10) * p + (3 / 10) * (1 - t) + (2 / 10) * a + (2 / 10) * (1 - v)) * 100)

/-- Critical-condition predicate of src/app.py lines 26-29: strict
comparison of the latest motor temperature against 80 and the latest
vibration against 10. -/
def isCritical (r : SensorReading) : Bool :=
  decide (80 < r.motorTempC) || decide (10 < r.vibrationMMs)

/-- Distinct values of a list in first-occurrence order (the distinct
fan ids as they first appear in the table). -/
def firstOccurrences : List Nat → List Nat
  | [] => []
  | x :: xs => x :: (firstOccurrences xs).filter (fun y => y ≠ x)

/-- Embedding of `data.groupby(..).apply(lambda df: df.iloc[-1])`
(src/app.py line 19): group keys are sorted ascending (pandas groupby
default sort=True); each group keeps row order and contributes its
positionally last row. -/
def latest_data_all_fans (rows : List SensorReading) :
    List (Nat × Option SensorReading) :=
  (List.insertionSort (· ≤ ·) (firstOccurrences (rows.map (fun r => r.fanId)))).map
    (fun fid => (fid, (rows.filter (fun r => r.fanId == fid)).getLast?))

/-- The critical-fans subtable of src/app.py lines 26-29: rows of the
latest table whose temperature or vibration strictly exceeds its
threshold. -/
def critical_fans (rows : List SensorReading) : List (Nat × SensorReading) :=
  (latest_data_all_fans rows).filterMap
    (fun p => p.2.bind (fun r => if isCritical r then some (p.1, r) else none))

/-- Status of one fan in the summary loop (src/app.py line 36):
Critical exactly when the fan id is in the critical_fans index. -/
def fan_status (rows : List SensorReading) (fid : Nat) : Bool :=
  ((critical_fans rows).map Prod.fst).contains fid

/-- The fleet summary rendered by the stats loop (src/app.py
lines 33-47): one entry per group of latest_data_all_fans, in that
order, with the status flag and the latest row. -/
def fleet_summary (rows : List SensorReading) :
    List (Nat × Bool × Option SensorReading) :=
  (latest_data_all_fans rows).map (fun p => (p.1, fan_status rows p.1, p.2))

/-- Rows of the selected fan (src/app.py line 76). -/
def filtered_by_fan (rows : List SensorReading) (fid : Nat) : List SensorReading :=
  rows.filter (fun r => r.fanId == fid)

/-- Date-range filter of src/app.py line 82: both comparisons are
non-strict, so both endpoints are kept. -/
def filtered_data (rows : List SensorReading) (fid : Nat) (startD endD : Int) :
    List SensorReading :=
  (filtered_by_fan rows fid).filter
    (fun r => decide (startD ≤ r.timestamp) && decide (r.timestamp ≤ endD))

/-- Modelled from the spec: the FleetAggregator contract takes an
explicit mapping fan_id to FanSeries (section 4.4); a fan with an empty
series is reported as an EmptyWindowError entry, not skipped. The code
in src/app.py builds groups from table rows, so an empty series is not
representable there; this definition follows the spec contract. -/
def aggregate (series : List (Nat × List SensorReading)) :
    List (Nat × Except EmptyWindowError SensorReading) :=
  series.map (fun p =>
    (p.1, match p.2.getLast? with
      | some r => .ok r
      | none => .error .emptyWindow))

/-- Reading constructor with defaults for the fields that do not enter
any computation. -/
def mkReading (fid : Nat) (ts : Int) (p t a v : ℚ) : SensorReading :=
  { fanId := fid, timestamp := ts, powerKW := p, motorTempC := t,
    airflowM3s := a, vibrationMMs := v, powerRatingKW := 1,
    operationalStatus := "Active", notes := "" }

/-- First reading of spec Scenario A: power 5, temp 40, airflow 10,
vibration 2. -/
def scenA1 : SensorReading := mkReading 1 1 5 40 10 2

/-- Second reading of spec Scenario A: power 10, temp 60, airflow 20,
vibration 4. -/
def scenA2 : SensorReading := mkReading 1 2 10 60 20 4

/-- Reading of fan 1 with the larger timestamp, placed first in the
unsorted table used against the aggregator. -/
def rowLateTs : SensorReading := mkReading 1 2 1 1 1 1

/-- Reading of fan 1 with the smaller timestamp, placed last in the
unsorted table used against the aggregator. -/
def rowEarlyTs : SensorReading := mkReading 1 1 5 5 5 5

/-- Table row of fan 2, appearing first in the fleet ordering table. -/
def rowFan2 : SensorReading := mkReading 2 1 0 0 0 0

/-- Table row of fan 1, appearing second in the fleet ordering table. -/
def rowFan1 : SensorReading := mkReading 1 2 0 0 0 0

/-- Fan-1 series sorted ascending by timestamp, first reading. -/
def srtA : SensorReading := mkReading 1 1 1 1 1 1

/-- Fan-1 series sorted ascending by timestamp, second reading. -/
def srtB : SensorReading := mkReading 1 2 2 2 2 2

/-- Base window fixing the temperature range 0..100 for the
monotonicity witness. -/
def tempBase : List SensorReading :=
  [mkReading 1 1 0 0 0 0, mkReading 1 2 0 100 0 0]

/-- Latest reading with the lower motor temperature 40. -/
def tempLo : SensorReading := mkReading 1 3 0 40 0 0

/-- Latest reading with the higher motor temperature 60. -/
def tempHi : SensorReading := mkReading 1 4 0 60 0 0

/-- Two-reading window over the ranges 0..10 of every metric. -/
def winA : List SensorReading :=
  [mkReading 1 1 0 0 0 0, mkReading 1 2 10 10 10 10]

/-- Three-reading window with the same per-metric min, max and latest
value as winA but an extra interior reading. -/
def winB : List SensorReading :=
  [mkReading 1 1 0 0 0 0, mkReading 1 3 5 5 5 5, mkReading 1 2 10 10 10 10]

lemma foldl_min_le_init (xs : List ℚ) (a : ℚ) : xs.foldl min a ≤ a := by
  induction xs generalizing a with
  | nil => simp
  | cons x xs ih =>
    exact le_trans (ih (min a x)) (min_le_left a x)

lemma foldl_min_le {x : ℚ} (xs : List ℚ) (a : ℚ) (hx : x ∈ xs) :
    xs.foldl min a ≤ x := by
  induction xs generalizing a with
  | nil => cases hx
  | cons y ys ih =>
    rcases List.mem_cons.mp hx with h | h
    · subst h
      exact le_trans (foldl_min_le_init ys (min a x)) (min_le_right a x)
    · exact ih (min a y) h

lemma foldl_min_mem (xs : List ℚ) (a : ℚ) :
    xs.foldl min a = a ∨ xs.foldl min a ∈ xs := by
  induction xs generalizing a with
  | nil => exact Or.inl rfl
  | cons y ys ih =>
    rcases ih (min a y) with h | h
    · rcases min_choice a y with h1 | h1
      · exact Or.inl (by rw [List.foldl_cons, h, h1])
      · exact Or.inr (by rw [List.foldl_cons, h, h1]; exact List.mem_cons_self y ys)
    · exact Or.inr (List.mem_cons_of_mem y h)

lemma init_le_foldl_max (xs : List ℚ) (a : ℚ) : a ≤ xs.foldl max a := by
  induction xs generalizing a with
  | nil => simp
  | cons x xs ih =>
    exact le_trans (le_max_left a x) (ih (max a x))

lemma le_foldl_max {x : ℚ} (xs : List ℚ) (a : ℚ) (hx : x ∈ xs) :
    x ≤ xs.foldl max a := by
  induction xs generalizing a with
  | nil => cases hx
  | cons y ys ih =>
    rcases List.mem_cons.mp hx with h | h
    · subst h
      exact le_trans (le_max_right a x) (init_le_foldl_max ys (max a x))
    · exact ih (max a y) h

lemma foldl_max_mem (xs : List ℚ) (a : ℚ) :
    xs.foldl max a = a ∨ xs.foldl max a ∈ xs := by
  induction xs generalizing a with
  | nil => exact Or.inl rfl
  | cons y ys ih =>
    rcases ih (max a y) with h | h
    · rcases max_choice a y with h1 | h1
      · exact Or.inl (by rw [List.foldl_cons, h, h1])
      · exact Or.inr (by rw [List.foldl_cons, h, h1]; exact List.mem_cons_self y ys)
    · exact Or.inr (List.mem_cons_of_mem y h)

lemma colMin_le {xs : List ℚ} {x : ℚ} (hx : x ∈ xs) : colMin xs ≤ x := by
  cases xs with
  | nil => cases hx
  | cons y ys =>
    rcases List.mem_cons.mp hx with h | h
    · subst h; exact foldl_min_le_init ys x
    · exact foldl_min_le ys y h

lemma le_colMax {xs : List ℚ} {x : ℚ} (hx : x ∈ xs) : x ≤ colMax xs := by
  cases xs with
  | nil => cases hx
  | cons y ys =>
    rcases List.mem_cons.mp hx with h | h
    · subst h; exact init_le_foldl_max ys x
    · exact le_foldl_max ys y h

lemma colMin_mem {xs : List ℚ} (h : xs ≠ []) : colMin xs ∈ xs := by
  cases xs with
  | nil => exact absurd rfl h
  | cons y ys =>
    rcases foldl_min_mem ys y with h1 | h1
    · rw [colMin, h1]; exact List.mem_cons_self y ys
    · exact List.mem_cons_of_mem y h1

lemma colMax_mem {xs : List ℚ} (h : xs ≠ []) : colMax xs ∈ xs := by
  cases xs with
  | nil => exact absurd rfl h
  | cons y ys =>
    rcases foldl_max_mem ys y with h1 | h1
    · rw [colMax, h1]; exact List.mem_cons_self y ys
    · exact List.mem_cons_of_mem y h1

lemma colMin_le_colMax {xs : List ℚ} (h : xs ≠ []) : colMin xs ≤ colMax xs :=
  le_trans (colMin_le (colMin_mem h)) (le_colMax (colMin_mem h))

lemma eq_colMin_of_colMin_eq_colMax {xs : List ℚ} (h : colMin xs = colMax xs)
    {x : ℚ} (hx : x ∈ xs) : x = colMin xs :=
  le_antisymm (h ▸ le_colMax hx) (colMin_le hx)

lemma mem_minMaxScale {y : ℚ} {xs : List ℚ} :
    y ∈ minMaxScale xs ↔ ∃ v ∈ xs, scaleEntry xs v = y := by
  simp [minMaxScale, List.mem_map]

lemma scaleEntry_unit {xs : List ℚ} {v : ℚ} (hv : v ∈ xs) :
    0 ≤ scaleEntry xs v ∧ scaleEntry xs v ≤ 1 := by
  unfold scaleEntry
  by_cases hlt : colMin xs < colMax xs
  · rw [if_pos hlt]
    have hpos : 0 < colMax xs - colMin xs := sub_pos.mpr hlt
    constructor
    · exact div_nonneg (sub_nonneg.mpr (colMin_le hv)) (le_of_lt hpos)
    · rw [div_le_one hpos]
      exact sub_le_sub_right (le_colMax hv) _
  · rw [if_neg hlt]
    have hne : xs ≠ [] := by rintro rfl; cases hv
    have heq : colMin xs = colMax xs :=
      le_antisymm (colMin_le_colMax hne) (le_of_not_lt hlt)
    have hv0 : v = colMin xs := eq_colMin_of_colMin_eq_colMax heq hv
    rw [hv0, sub_self]
    norm_num

/-- Every normalized value lies in the unit interval, for every window
(zero-variance columns normalize to 0). -/
lemma normalizedColumn_unit (m : Metric) (w : List SensorReading) :
    ∀ y ∈ normalizedColumn m w, 0 ≤ y ∧ y ≤ 1 := by
  intro y hy
  rcases mem_minMaxScale.mp hy with ⟨v, hv, hsc⟩
  exact hsc ▸ scaleEntry_unit hv

lemma getLastD_map_of_ne_nil {α β : Type} (f : α → β) {xs : List α}
    (h : xs ≠ []) (d : β) (d' : α) :
    (xs.map f).getLastD d = f (xs.getLastD d') := by
  cases h1 : xs.getLast? with
  | none => exact absurd (List.getLast?_eq_none_iff.mp h1) h
  | some v =>
    rw [List.getLastD_eq_getLast?, List.getLastD_eq_getLast?, List.getLast?_map, h1]
    rfl

lemma metricColumn_ne_nil {m : Metric} {w : List SensorReading} (h : w ≠ []) :
    metricColumn m w ≠ [] := by
  simp [metricColumn, h]

lemma normalizedColumn_ne_nil {m : Metric} {w : List SensorReading} (h : w ≠ []) :
    normalizedColumn m w ≠ [] := by
  simp [normalizedColumn, minMaxScale, metricColumn, h]

lemma ilocLast_ok {xs : List ℚ} (h : xs ≠ []) : ilocLast xs = .ok (xs.getLastD 0) := by
  cases h1 : xs.getLast? with
  | none => exact absurd (List.getLast?_eq_none_iff.mp h1) h
  | some v => simp [ilocLast, h1, List.getLastD_eq_getLast?]

lemma getD_minMaxScale {xs : List ℚ} {i : Nat} (h : i < xs.length) :
    (minMaxScale xs).getD i 0 = scaleEntry xs (xs.getD i 0) := by
  rw [minMaxScale, List.getD_eq_getElem?_getD, List.getElem?_map,
    List.getElem?_eq_getElem h, List.getD_eq_getElem?_getD, List.getElem?_eq_getElem h]
  rfl

/-- The last element of a normalized column is the scaled last element
of the raw column. -/
lemma lastNorm_eq {m : Metric} {w : List SensorReading} (h : w ≠ []) :
    lastNorm m w =
      scaleEntry (metricColumn m w) ((metricColumn m w).getLastD 0) := by
  rw [lastNorm, normalizedColumn, minMaxScale]
  exact getLastD_map_of_ne_nil _ (metricColumn_ne_nil h) 0 0

lemma lastNorm_mem {m : Metric} {w : List SensorReading} (h : w ≠ []) :
    lastNorm m w ∈ normalizedColumn m w := by
  rw [lastNorm, List.getLastD_eq_getLast?]
  cases h1 : (normalizedColumn m w).getLast? with
  | none => exact absurd (List.getLast?_eq_none_iff.mp h1) (normalizedColumn_ne_nil h)
  | some v => exact List.mem_of_getLast?_eq_some h1

/-- On a non-empty window the condition score succeeds and equals the
weighted combination of the four last normalized values. -/
lemma condition_score_ok (w : List SensorReading) (hw : w ≠ []) :
    condition_score w =
      .ok (((3 / 10) * lastNorm .power w + (3 / 10) * (1 - lastNorm .temp w) +
        (2 / 10) * lastNorm .airflow w + (2 / 10) * (1 - lastNorm .vibration w)) * 100) := by
  have hne : ∀ m : Metric, normalizedColumn m w ≠ [] :=
    fun m => normalizedColumn_ne_nil hw
  have hempty : w.isEmpty = false := List.isEmpty_eq_false.mpr hw
  have hnm : normalized_metrics w = .ok (fun m => minMaxScale (metricColumn m w)) := by
    rw [normalized_metrics, hempty]
    rfl
  rw [condition_score, hnm]
  show (ilocLast (normalizedColumn .power w)).bind _ = _
  rw [ilocLast_ok (hne .power)]
  show (ilocLast (normalizedColumn .temp w)).bind _ = _
  rw [ilocLast_ok (hne .temp)]
  show (ilocLast (normalizedColumn .airflow w)).bind _ = _
  rw [ilocLast_ok (hne .airflow)]
  show (ilocLast (normalizedColumn .vibration w)).bind _ = _
  rw [ilocLast_ok (hne .vibration)]
  rfl

lemma getD_mem {xs : List ℚ} {i : Nat} (h : i < xs.length) : xs.getD i 0 ∈ xs := by
  rw [List.getD_eq_getElem?_getD, List.getElem?_eq_getElem h]
  exact List.getElem_mem h

lemma metricColumn_length (m : Metric) (w : List SensorReading) :
    (metricColumn m w).length = w.length :=
  List.length_map _ _

/-- C1: on every non-empty window and every selected metric, the
normalized column holds (v - min)/(max - min) at each index when the
window max strictly exceeds the window min, and exactly 0 at every index
when max equals min (in particular on every single-reading window); and
whenever the metric takes at least two distinct values in the window,
every normalized value lies in [0,1], indices holding the window maximum
normalize to 1 and indices holding the window minimum normalize to 0. -/
theorem normalize_minmax_policy (w : List SensorReading) (hw : w ≠ []) (m : Metric) :
    (∀ i, i < w.length →
      (colMin (metricColumn m w) < colMax (metricColumn m w) →
        (normalizedColumn m w).getD i 0 =
          ((metricColumn m w).getD i 0 - colMin (metricColumn m w)) /
            (colMax (metricColumn m w) - colMin (metricColumn m w))) ∧
      (colMin (metricColumn m w) = colMax (metricColumn m w) →
        (normalizedColumn m w).getD i 0 = 0)) ∧
    (w.length = 1 → ∀ i, i < w.length → (normalizedColumn m w).getD i 0 = 0) ∧
    ((∃ a ∈ metricColumn m w, ∃ b ∈ metricColumn m w, a ≠ b) →
      (∀ y ∈ normalizedColumn m w, 0 ≤ y ∧ y ≤ 1) ∧
      (∀ i, i < w.length →
        (metricColumn m w).getD i 0 = colMax (metricColumn m w) →
        (normalizedColumn m w).getD i 0 = 1) ∧
      (∀ i, i < w.length →
        (metricColumn m w).getD i 0 = colMin (metricColumn m w) →
        (normalizedColumn m w).getD i 0 = 0)) := by
  set xs := metricColumn m w with hxs
  have hzero : ∀ i, i < w.length → colMin xs = colMax xs →
      (normalizedColumn m w).getD i 0 = 0 := by
    intro i hi heq
    have hi2 : i < xs.length := by rw [hxs, metricColumn_length]; exact hi
    rw [normalizedColumn, ← hxs, getD_minMaxScale hi2, scaleEntry,
      if_neg (by rw [heq]; exact lt_irrefl _)]
    rw [eq_colMin_of_colMin_eq_colMax heq (getD_mem hi2), sub_self]
  refine ⟨?_, ?_, ?_⟩
  · intro i hi
    have hi2 : i < xs.length := by rw [hxs, metricColumn_length]; exact hi
    refine ⟨?_, hzero i hi⟩
    intro hlt
    rw [normalizedColumn, ← hxs, getD_minMaxScale hi2, scaleEntry, if_pos hlt]
  · intro hlen i hi
    rcases List.length_eq_one.mp hlen with ⟨r, hr⟩
    refine hzero i hi ?_
    rw [hxs, hr]
    rfl
  · intro hdist
    have hne : xs ≠ [] := by
      rcases hdist with ⟨a, ha, _⟩
      intro h0
      rw [h0] at ha
      cases ha
    have hlt : colMin xs < colMax xs := by
      rcases hdist with ⟨a, ha, b, hb, hab⟩
      rcases lt_or_eq_of_le (colMin_le_colMax hne) with h | h
      · exact h
      · exact absurd (by rw [eq_colMin_of_colMin_eq_colMax h ha,
          eq_colMin_of_colMin_eq_colMax h hb]) hab
    refine ⟨normalizedColumn_unit m w, ?_, ?_⟩
    · intro i hi hmax
      have hi2 : i < xs.length := by rw [hxs, metricColumn_length]; exact hi
      rw [normalizedColumn, ← hxs, getD_minMaxScale hi2, scaleEntry, if_pos hlt, hmax]
      exact div_self (ne_of_gt (sub_pos.mpr hlt))
    · intro i hi hmin
      have hi2 : i < xs.length := by rw [hxs, metricColumn_length]; exact hi
      rw [normalizedColumn, ← hxs, getD_minMaxScale hi2, scaleEntry, if_pos hlt, hmin,
        sub_self, zero_div]

/-- Witness for C1: on the two-reading window of Scenario A the power
column has two distinct values and the later reading holds the window
maximum, so its normalized power is 1. -/
theorem normalize_minmax_policy_witness :
    (normalizedColumn .power [scenA1, scenA2]).getD 1 0 = 1 :=
  ((normalize_minmax_policy [scenA1, scenA2] (by decide) .power).2.2
    (by decide)).2.1 1 (by decide) (by decide)

/-- C2: on every non-empty window the condition score is
100 x (0.3 pn + 0.3 (1 - tn) + 0.2 an + 0.2 (1 - vn)) built from the
last element of each normalized column, and on the Scenario A window it
is exactly 50. -/
theorem condition_score_weighted_formula (w : List SensorReading) (hw : w ≠ []) :
    condition_score w =
      .ok (100 * ((3 / 10) * lastNorm .power w + (3 / 10) * (1 - lastNorm .temp w) +
        (2 / 10) * lastNorm .airflow w + (2 / 10) * (1 - lastNorm .vibration w))) ∧
    condition_score [scenA1, scenA2] = .ok 50 := by
  constructor
  · rw [condition_score_ok w hw, mul_comm]
  · rw [condition_score_ok [scenA1, scenA2] (by decide)]
    norm_num [lastNorm, normalizedColumn, minMaxScale, scaleEntry, metricColumn,
      metricValue, colMin, colMax, scenA1, scenA2, mkReading, min_def, max_def]

/-- Witness for C2 at the Scenario A window. -/
theorem condition_score_weighted_formula_witness :
    condition_score [scenA1, scenA2] =
      .ok (100 * ((3 / 10) * lastNorm .power [scenA1, scenA2] +
        (3 / 10) * (1 - lastNorm .temp [scenA1, scenA2]) +
        (2 / 10) * lastNorm .airflow [scenA1, scenA2] +
        (2 / 10) * (1 - lastNorm .vibration [scenA1, scenA2]))) ∧
    condition_score [scenA1, scenA2] = .ok 50 :=
  condition_score_weighted_formula [scenA1, scenA2] (by decide)

/-- C3: whenever every normalized value of every metric of a non-empty
window lies in [0,1] (which the normalization policy guarantees), the
condition score succeeds and lies in [0,100]. -/
theorem condition_score_in_range (w : List SensorReading) (hw : w ≠ [])
    (hunit : ∀ m : Metric, ∀ y ∈ normalizedColumn m w, 0 ≤ y ∧ y ≤ 1) :
    ∃ s, condition_score w = .ok s ∧ 0 ≤ s ∧ s ≤ 100 := by
  refine ⟨_, condition_score_ok w hw, ?_, ?_⟩
  all_goals
    obtain ⟨hp0, hp1⟩ := hunit .power _ (lastNorm_mem hw)
    obtain ⟨ht0, ht1⟩ := hunit .temp _ (lastNorm_mem hw)
    obtain ⟨ha0, ha1⟩ := hunit .airflow _ (lastNorm_mem hw)
    obtain ⟨hv0, hv1⟩ := hunit .vibration _ (lastNorm_mem hw)
    nlinarith [hp0, hp1, ht0, ht1, ha0, ha1, hv0, hv1]

/-- Witness for C3 at the Scenario A window. -/
theorem condition_score_in_range_witness :
    ∃ s, condition_score [scenA1, scenA2] = .ok s ∧ 0 ≤ s ∧ s ≤ 100 :=
  condition_score_in_range [scenA1, scenA2] (by decide)
    (fun m => normalizedColumn_unit m [scenA1, scenA2])

/-- C4: a reading is classified Critical exactly when its motor
temperature strictly exceeds 80 or its vibration strictly exceeds 10;
at the boundary (temp 80, vibration 10) it is Normal, while temp 80.0001
or vibration 10.0001 is Critical. -/
theorem classify_strict_thresholds :
    (∀ r : SensorReading,
      isCritical r = true ↔ (80 < r.motorTempC ∨ 10 < r.vibrationMMs)) ∧
    isCritical (mkReading 1 1 0 80 0 10) = false ∧
    isCritical (mkReading 1 1 0 (800001 / 10000) 0 10) = true ∧
    isCritical (mkReading 1 1 0 80 0 (100001 / 10000)) = true := by
  refine ⟨?_, ?_, ?_, ?_⟩
  · intro r
    simp [isCritical]
  all_goals norm_num [isCritical, mkReading]

lemma mem_of_mem_firstOccurrences {x : Nat} :
    ∀ {l : List Nat}, x ∈ firstOccurrences l → x ∈ l := by
  intro l
  induction l with
  | nil => intro h; cases h
  | cons y ys ih =>
    intro h
    rcases List.mem_cons.mp h with h | h
    · exact h ▸ List.mem_cons_self y ys
    · exact List.mem_cons_of_mem y (ih (List.mem_filter.mp h).1)

lemma le_getLast_of_pairwise :
    ∀ l : List SensorReading,
      l.Pairwise (fun a b => a.timestamp ≤ b.timestamp) →
      ∀ r, l.getLast? = some r → ∀ x ∈ l, x.timestamp ≤ r.timestamp := by
  intro l
  induction l with
  | nil => intro _ r hr; cases hr
  | cons y ys ih =>
    intro hp r hr x hx
    cases ys with
    | nil =>
      have hy : y = r := by
        simpa using hr
      have hxy : x = y := by
        simpa using hx
      rw [hxy, hy]
    | cons z zs =>
      rw [List.getLast?_cons_cons] at hr
      rcases List.mem_cons.mp hx with h | h
      · have hrmem : r ∈ z :: zs := List.mem_of_getLast?_eq_some hr
        exact h ▸ (List.pairwise_cons.mp hp).1 r hrmem
      · exact ih (List.pairwise_cons.mp hp).2 r hr x h

/-- C5 counterexample: on a one-fan table that is not sorted ascending
by timestamp, the aggregator reports the positionally last reading,
whose timestamp 1 is strictly below the timestamp 2 present earlier in
the same series, so it does not select by maximum timestamp. -/
theorem latest_by_position_counterexample :
    latest_data_all_fans [rowLateTs, rowEarlyTs] = [(1, some rowEarlyTs)] ∧
    rowLateTs ∈ [rowLateTs, rowEarlyTs] ∧ rowLateTs.fanId = 1 ∧
    rowEarlyTs.timestamp < rowLateTs.timestamp := by
  decide

/-- C5 amended: the aggregator reports each fan's positionally last
reading, which is a maximum-timestamp reading of that fan's series only
when the input table is sorted ascending by timestamp. -/
theorem latest_positional_max_when_sorted (rows : List SensorReading)
    (hs : rows.Pairwise (fun a b => a.timestamp ≤ b.timestamp))
    (fid : Nat) (g : Option SensorReading)
    (hmem : (fid, g) ∈ latest_data_all_fans rows) :
    ∃ r, g = some r ∧ r ∈ rows ∧ r.fanId = fid ∧
      ∀ r' ∈ rows, r'.fanId = fid → r'.timestamp ≤ r.timestamp := by
  rw [latest_data_all_fans] at hmem
  rcases List.mem_map.mp hmem with ⟨k, hk, hpair⟩
  simp only [Prod.mk.injEq] at hpair
  obtain ⟨hkfid, hg0⟩ := hpair
  have hg : g = (rows.filter (fun r => r.fanId == k)).getLast? := hg0.symm
  subst hkfid
  have hkeys : k ∈ firstOccurrences (rows.map (fun r => r.fanId)) :=
    ((List.perm_insertionSort (· ≤ ·) _).mem_iff).mp hk
  rcases List.mem_map.mp (mem_of_mem_firstOccurrences hkeys) with ⟨r0, hr0, hr0id⟩
  have hr0f : r0 ∈ rows.filter (fun r => r.fanId == k) :=
    List.mem_filter.mpr ⟨hr0, by simp [hr0id]⟩
  have hfne : rows.filter (fun r => r.fanId == k) ≠ [] := by
    intro h0
    rw [h0] at hr0f
    cases hr0f
  cases hlast : (rows.filter (fun r => r.fanId == k)).getLast? with
  | none => exact absurd (List.getLast?_eq_none_iff.mp hlast) hfne
  | some r =>
    have hrf : r ∈ rows.filter (fun r => r.fanId == k) :=
      List.mem_of_getLast?_eq_some hlast
    have hrmem : r ∈ rows := (List.mem_filter.mp hrf).1
    have hrid : r.fanId = k := by
      have := (List.mem_filter.mp hrf).2
      simpa using this
    refine ⟨r, by rw [hg, hlast], hrmem, hrid, ?_⟩
    intro r' hr' hr'id
    have hpf : (rows.filter (fun r => r.fanId == k)).Pairwise
        (fun a b => a.timestamp ≤ b.timestamp) :=
      List.Pairwise.sublist (List.filter_sublist rows) hs
    have hr'f : r' ∈ rows.filter (fun r => r.fanId == k) :=
      List.mem_filter.mpr ⟨hr', by simp [hr'id]⟩
    exact le_getLast_of_pairwise _ hpf r hlast r' hr'f

/-- Witness for C5 amended, on a sorted two-reading series of fan 1. -/
theorem latest_positional_max_when_sorted_witness :
    ∃ r, (some srtB : Option SensorReading) = some r ∧ r ∈ [srtA, srtB] ∧
      r.fanId = 1 ∧
      ∀ r' ∈ [srtA, srtB], r'.fanId = 1 → r'.timestamp ≤ r.timestamp :=
  latest_positional_max_when_sorted [srtA, srtB] (by decide) 1 (some srtB)
    (by decide)

/-- C6 counterexample: with fan 2 first in the table, the summary lists
fan 1 first: pandas groupby sorts the group keys, so the aggregator does
not preserve the insertion order of the fans. -/
theorem summary_order_counterexample :
    (fleet_summary [rowFan2, rowFan1]).map (fun q => q.1) = [1, 2] ∧
    firstOccurrences ([rowFan2, rowFan1].map (fun r => r.fanId)) = [2, 1] ∧
    ([1, 2] : List Nat) ≠ [2, 1] := by
  decide

/-- C6 amended: the summary lists the fans in ascending fan-id order
(pandas groupby default sort), a permutation of the distinct fan ids in
first-appearance order. -/
theorem summary_fan_order (rows : List SensorReading) :
    List.Sorted (· ≤ ·) ((fleet_summary rows).map (fun q => q.1)) ∧
    ((fleet_summary rows).map (fun q => q.1)).Perm
      (firstOccurrences (rows.map (fun r => r.fanId))) := by
  have hkeys : (fleet_summary rows).map (fun q => q.1) =
      List.insertionSort (· ≤ ·) (firstOccurrences (rows.map (fun r => r.fanId))) := by
    simp [fleet_summary, latest_data_all_fans, List.map_map, Function.comp_def]
  rw [hkeys]
  exact ⟨List.sorted_insertionSort _ _, List.perm_insertionSort _ _⟩

lemma metricColumn_append (m : Metric) (u v : List SensorReading) :
    metricColumn m (u ++ v) = metricColumn m u ++ metricColumn m v :=
  List.map_append _ _ _

lemma getLastD_append_singleton (l : List ℚ) (v : ℚ) :
    (l ++ [v]).getLastD 0 = v := by
  rw [List.getLastD_eq_getLast?, List.getLast?_concat]
  rfl

lemma lastNorm_append_singleton (m : Metric) (base : List SensorReading)
    (r : SensorReading) :
    lastNorm m (base ++ [r]) =
      scaleEntry (metricColumn m (base ++ [r])) (metricValue m r) := by
  rw [lastNorm_eq (by simp), metricColumn_append]
  congr 1
  exact getLastD_append_singleton _ _

/-- C7: with the temperature window min and max fixed and strictly apart,
and the other metric values of the latest reading fixed, a strictly
larger latest motor temperature yields a strictly smaller condition
score. -/
theorem score_strict_antitone_in_latest_temp
    (base : List SensorReading) (r1 r2 : SensorReading)
    (hp : r1.powerKW = r2.powerKW) (ha : r1.airflowM3s = r2.airflowM3s)
    (hv : r1.vibrationMMs = r2.vibrationMMs)
    (ht : r1.motorTempC < r2.motorTempC)
    (hmin : colMin (metricColumn .temp (base ++ [r2])) =
      colMin (metricColumn .temp (base ++ [r1])))
    (hmax : colMax (metricColumn .temp (base ++ [r2])) =
      colMax (metricColumn .temp (base ++ [r1])))
    (hlt : colMin (metricColumn .temp (base ++ [r1])) <
      colMax (metricColumn .temp (base ++ [r1]))) :
    ∃ s1 s2, condition_score (base ++ [r1]) = .ok s1 ∧
      condition_score (base ++ [r2]) = .ok s2 ∧ s2 < s1 := by
  refine ⟨_, _, condition_score_ok _ (by simp), condition_score_ok _ (by simp), ?_⟩
  have hcol : ∀ m : Metric, metricValue m r1 = metricValue m r2 →
      lastNorm m (base ++ [r1]) = lastNorm m (base ++ [r2]) := by
    intro m hm
    rw [lastNorm_append_singleton, lastNorm_append_singleton,
      metricColumn_append, metricColumn_append]
    rw [show metricColumn m [r1] = [metricValue m r1] from rfl,
      show metricColumn m [r2] = [metricValue m r2] from rfl, hm]
  have htn : lastNorm .temp (base ++ [r1]) < lastNorm .temp (base ++ [r2]) := by
    rw [lastNorm_append_singleton, lastNorm_append_singleton, scaleEntry, scaleEntry,
      hmin, hmax, if_pos hlt, if_pos hlt]
    have hpos : 0 < colMax (metricColumn .temp (base ++ [r1])) -
        colMin (metricColumn .temp (base ++ [r1])) := sub_pos.mpr hlt
    rw [div_lt_div_iff₀ hpos hpos]
    simp only [metricValue]
    nlinarith [mul_pos (sub_pos.mpr ht) hpos]
  rw [hcol .power hp, hcol .airflow ha, hcol .vibration hv]
  linarith [htn]

/-- Witness for C7: temperature range 0..100 fixed by the base window,
latest temperature raised from 40 to 60. -/
theorem score_strict_antitone_in_latest_temp_witness :
    ∃ s1 s2, condition_score (tempBase ++ [tempLo]) = .ok s1 ∧
      condition_score (tempBase ++ [tempHi]) = .ok s2 ∧ s2 < s1 :=
  score_strict_antitone_in_latest_temp tempBase tempLo tempHi rfl rfl rfl
    (by decide) (by decide) (by decide) (by decide)

/-- C8: an empty window makes normalization, and hence scoring, fail
with EmptyWindowError instead of any numeric result, and the spec-level
aggregator reports a fan whose series is empty as an EmptyWindowError
entry in place, never dropping it from the output. -/
theorem empty_window_reported (series : List (Nat × List SensorReading))
    (p : Nat × List SensorReading) (hp : p ∈ series) (hempty : p.2 = []) :
    normalized_metrics ([] : List SensorReading) = .error .emptyWindow ∧
    condition_score ([] : List SensorReading) = .error .emptyWindow ∧
    (p.1, (.error .emptyWindow : Except EmptyWindowError SensorReading)) ∈
      aggregate series ∧
    (aggregate series).length = series.length := by
  refine ⟨rfl, rfl, ?_, by simp [aggregate]⟩
  refine List.mem_map.mpr ⟨p, hp, ?_⟩
  rw [hempty]
  rfl

/-- Witness for C8: a fleet with one fan whose series is empty. -/
theorem empty_window_reported_witness :
    normalized_metrics ([] : List SensorReading) = .error .emptyWindow ∧
    condition_score ([] : List SensorReading) = .error .emptyWindow ∧
    (7, (.error .emptyWindow : Except EmptyWindowError SensorReading)) ∈
      aggregate [(7, ([] : List SensorReading))] ∧
    (aggregate [(7, ([] : List SensorReading))]).length =
      [(7, ([] : List SensorReading))].length :=
  empty_window_reported [(7, [])] (7, []) (by simp) rfl

/-- C9: the date-range filter keeps both endpoints: a reading of the
selected fan whose timestamp equals the start date or the end date of
the selected range lies in the filtered window. -/
theorem date_filter_inclusive (rows : List SensorReading) (fid : Nat)
    (startD endD : Int) (hrange : startD ≤ endD) (r : SensorReading)
    (hr : r ∈ filtered_by_fan rows fid)
    (hts : r.timestamp = startD ∨ r.timestamp = endD) :
    r ∈ filtered_data rows fid startD endD := by
  rw [filtered_data, List.mem_filter]
  refine ⟨hr, ?_⟩
  rcases hts with h | h <;> simp [h, hrange]

/-- Witness for C9: a reading whose timestamp equals the start date of
the range 5..7. -/
theorem date_filter_inclusive_witness :
    mkReading 3 5 1 1 1 1 ∈ filtered_data [mkReading 3 5 1 1 1 1] 3 5 7 :=
  date_filter_inclusive [mkReading 3 5 1 1 1 1] 3 5 7 (by decide)
    (mkReading 3 5 1 1 1 1) (by decide) (Or.inl rfl)

/-- C10: the condition score is determined by the window minimum, window
maximum and latest value of each of the four metrics: two non-empty
windows that agree on those twelve numbers score identically, whatever
their other readings are. -/
theorem score_depends_only_on_extremes_and_latest
    (w1 w2 : List SensorReading) (h1 : w1 ≠ []) (h2 : w2 ≠ [])
    (hagree : ∀ m : Metric,
      colMin (metricColumn m w1) = colMin (metricColumn m w2) ∧
      colMax (metricColumn m w1) = colMax (metricColumn m w2) ∧
      (metricColumn m w1).getLastD 0 = (metricColumn m w2).getLastD 0) :
    condition_score w1 = condition_score w2 := by
  rw [condition_score_ok w1 h1, condition_score_ok w2 h2]
  have hlast : ∀ m : Metric, lastNorm m w1 = lastNorm m w2 := by
    intro m
    obtain ⟨hmn, hmx, hl⟩ := hagree m
    rw [lastNorm_eq h1, lastNorm_eq h2, scaleEntry, scaleEntry, hmn, hmx, hl]
  rw [hlast .power, hlast .temp, hlast .airflow, hlast .vibration]

/-- Witness for C10: winB has an extra interior reading but the same
per-metric min, max and latest value as winA, and scores equally. -/
theorem score_depends_only_on_extremes_and_latest_witness :
    condition_score winA = condition_score winB :=
  score_depends_only_on_extremes_and_latest winA winB (by decide) (by decide)
    (by intro m; cases m <;> exact ⟨by decide, by decide, by decide⟩)

end FanDashboard
